import Mathlib

/-!
Verification of the tiler grid placement engine.

Shallow embedding of the relevant parts of the source:
- `constants.py` (CELL_SIZE)
- `grid_canvas.py` (coordinate transform, occupancy dict, drag/drop handling,
  grid resize, tile removal)
- `image_viewer.py` (bank collection, selection trackers, project load)
- `image_bank.py` (bank-origin drag commit)
- `project_manager.py` (save/load documents)

Python dicts are modelled as insertion-ordered association lists, Python sets
as duplicate-free lists used up to membership, floats as rationals, and the
`int()` conversion of Python as truncation toward zero.
-/

namespace Tiler

/-- CELL_SIZE = 60 from constants.py. -/
def CELL_SIZE : ℚ := 60

/-- A grid cell: (grid_x, grid_y).  `get_grid_position` can produce negative
coordinates, so both components are integers. -/
abbrev Pos := Int × Int

/-- A GridTile (grid_canvas.py, class GridTile): the fields of the widget that
carry model state.  `visible` models Qt show()/hide(). -/
structure Tile where
  file_path : String
  original_bank_index : Option Int
  selected : Bool
  visible : Bool
deriving DecidableEq, Repr

/-- Python dict lookup (first matching key; Python keys are unique). -/
def dictLookup (p : Pos) : List (Pos × Tile) → Option Tile
  | [] => none
  | (q, t) :: rest => if q = p then some t else dictLookup p rest

/-- Python `d[p] = t`: replace the value at an existing key in place,
otherwise append the new binding at the end. -/
def dictInsert (p : Pos) (t : Tile) : List (Pos × Tile) → List (Pos × Tile)
  | [] => [(p, t)]
  | (q, u) :: rest => if q = p then (p, t) :: rest else (q, u) :: dictInsert p t rest

/-- Python `del d[p]`. -/
def dictErase (p : Pos) : List (Pos × Tile) → List (Pos × Tile)
  | [] => []
  | (q, u) :: rest => if q = p then dictErase p rest else (q, u) :: dictErase p rest

/-- Python `p in d`. -/
def dictContains (p : Pos) (d : List (Pos × Tile)) : Bool :=
  (dictLookup p d).isSome

/-- The keys of the occupancy dict. -/
def dictKeys (d : List (Pos × Tile)) : List Pos :=
  d.map Prod.fst

/-- Python set `s.add x` on a duplicate-free list model. -/
def setAdd {α : Type} [DecidableEq α] (x : α) (s : List α) : List α :=
  if x ∈ s then s else s ++ [x]

/-- The combined state: InfiniteGridCanvas fields (grid_canvas.py) plus the
ImageViewer fields the core uses (image_viewer.py). -/
structure AppState where
  grid_rows : Nat
  grid_columns : Nat
  zoom_scale : ℚ
  pan_offset_x : ℚ
  pan_offset_y : ℚ
  tiles : List (Pos × Tile)
  dragged_tile : Option Tile
  dragged_tiles : Option (List (Pos × Tile))
  image_paths : List String
  selected_paths : List String
  selected_grid_tiles : List Pos
  last_selected_grid_pos : Option Pos
deriving DecidableEq, Repr

/-- The state right after ImageViewer.__init__ with a 20x20 grid, zoom 1 and
no pan (grid_canvas.py, InfiniteGridCanvas.__init__). -/
def initState : AppState :=
  { grid_rows := 20, grid_columns := 20,
    zoom_scale := 1, pan_offset_x := 0, pan_offset_y := 0,
    tiles := [], dragged_tile := none, dragged_tiles := none,
    image_paths := [], selected_paths := [],
    selected_grid_tiles := [], last_selected_grid_pos := none }

/-- Python `int(q)` truncates toward zero. -/
def truncQ (q : ℚ) : Int :=
  if 0 ≤ q then ⌊q⌋ else ⌈q⌉

/-- The screen-to-grid transform on exact coordinates:
x = (px - pan)/zoom; cell = int(x // CELL_SIZE), where Python float `//` is
the floor of the quotient (grid_canvas.py, get_grid_position). -/
def screenToGridQ (zoom panx pany ax ay : ℚ) : Pos :=
  (⌊(ax - panx) / zoom / CELL_SIZE⌋, ⌊(ay - pany) / zoom / CELL_SIZE⌋)

/-- InfiniteGridCanvas.get_grid_position: the argument is a QPoint, so its
coordinates are integers. -/
def get_grid_position (st : AppState) (px py : Int) : Pos :=
  screenToGridQ st.zoom_scale st.pan_offset_x st.pan_offset_y (px : ℚ) (py : ℚ)

/-- InfiniteGridCanvas.get_pixel_position: returns QPoint(int(x), int(y)),
truncating each float coordinate toward zero. -/
def get_pixel_position (st : AppState) (p : Pos) : Int × Int :=
  (truncQ ((p.1 : ℚ) * CELL_SIZE * st.zoom_scale + st.pan_offset_x),
   truncQ ((p.2 : ℚ) * CELL_SIZE * st.zoom_scale + st.pan_offset_y))

/-- The zoom clamp of InfiniteGridCanvas.wheelEvent:
MIN_ZOOM = 0.25, MAX_ZOOM = 3.0. -/
def clampZoom (z : ℚ) : ℚ :=
  if z < 1/4 then 1/4 else if 3 < z then 3 else z

/-- InfiniteGridCanvas.wheelEvent: zoom factor 1.1 when scrolling up, 0.9 when
scrolling down; clamp; then move the pan offsets so that the grid point under
the mouse stays fixed (`newPan = anchor - (anchor - oldPan) * (newZoom/oldZoom)`).
The anchor comes from event.position(), a float point, hence rational here. -/
def wheelEvent (st : AppState) (delta : Int) (ax ay : ℚ) : AppState :=
  let zoom_factor : ℚ := if 0 < delta then 11/10 else 9/10
  let new_zoom := clampZoom (st.zoom_scale * zoom_factor)
  let old_zoom := st.zoom_scale
  { st with
    zoom_scale := new_zoom,
    pan_offset_x := ax - (ax - st.pan_offset_x) * (new_zoom / old_zoom),
    pan_offset_y := ay - (ay - st.pan_offset_y) * (new_zoom / old_zoom) }

lemma clampZoom_pos {z : ℚ} (h : 0 < z) : 0 < clampZoom z := by
  unfold clampZoom
  split_ifs <;> linarith

lemma anchor_coord_preserved (z nz pan a : ℚ) (hz : z ≠ 0) (hnz : nz ≠ 0) :
    (a - (a - (a - pan) * (nz / z))) / nz / CELL_SIZE = (a - pan) / z / CELL_SIZE := by
  rw [CELL_SIZE]
  field_simp
  ring

/-- C6: the zoom-toward-point update of wheelEvent leaves the grid cell of the
anchor point unchanged; in fact the pre-floor grid-space coordinate of the
anchor is exactly preserved, so the cell is preserved exactly (stronger than
"up to floor-rounding at a cell boundary"). -/
theorem C6_zoom_anchor_invariant (st : AppState) (delta : Int) (ax ay : ℚ)
    (hz : 0 < st.zoom_scale) :
    screenToGridQ (wheelEvent st delta ax ay).zoom_scale
      (wheelEvent st delta ax ay).pan_offset_x
      (wheelEvent st delta ax ay).pan_offset_y ax ay
    = screenToGridQ st.zoom_scale st.pan_offset_x st.pan_offset_y ax ay := by
  have hf : (0:ℚ) < (if 0 < delta then (11:ℚ)/10 else 9/10) := by
    split <;> norm_num
  have hnz : 0 < clampZoom (st.zoom_scale * (if 0 < delta then (11:ℚ)/10 else 9/10)) :=
    clampZoom_pos (mul_pos hz hf)
  simp only [wheelEvent, screenToGridQ, Prod.mk.injEq]
  constructor <;>
  · congr 1
    exact anchor_coord_preserved st.zoom_scale _ _ _ (ne_of_gt hz) (ne_of_gt hnz)

/-- Witness for C6 at a concrete state, scroll direction and anchor. -/
theorem C6_zoom_anchor_invariant_witness :
    0 < initState.zoom_scale ∧
    screenToGridQ (wheelEvent initState 1 33 7).zoom_scale
      (wheelEvent initState 1 33 7).pan_offset_x
      (wheelEvent initState 1 33 7).pan_offset_y 33 7
    = screenToGridQ initState.zoom_scale initState.pan_offset_x
        initState.pan_offset_y 33 7 :=
  ⟨by norm_num [initState], C6_zoom_anchor_invariant initState 1 33 7 (by norm_num [initState])⟩

/-- C5 (amended): the pixel-grid round trip holds for every in-range cell and
every viewport whose exact pixel coordinates for that cell are integers, so
that the `int()` truncation in get_pixel_position loses nothing. -/
theorem C5_roundtrip_integral_pixels (st : AppState) (gx gy kx ky : Int)
    (hz : 0 < st.zoom_scale) (hz3 : st.zoom_scale ≤ 3)
    (hgx0 : 0 ≤ gx) (hgx : gx < (st.grid_columns : Int))
    (hgy0 : 0 ≤ gy) (hgy : gy < (st.grid_rows : Int))
    (hkx : (gx : ℚ) * CELL_SIZE * st.zoom_scale + st.pan_offset_x = (kx : ℚ))
    (hky : (gy : ℚ) * CELL_SIZE * st.zoom_scale + st.pan_offset_y = (ky : ℚ)) :
    get_grid_position st (get_pixel_position st (gx, gy)).1
      (get_pixel_position st (gx, gy)).2 = (gx, gy) := by
  have hpix : get_pixel_position st (gx, gy) = (kx, ky) := by
    simp only [get_pixel_position, truncQ]
    rw [hkx, hky]
    split_ifs <;> simp [Int.floor_intCast, Int.ceil_intCast]
  rw [hpix]
  have hz' : st.zoom_scale ≠ 0 := ne_of_gt hz
  have hx : ((kx : ℚ) - st.pan_offset_x) / st.zoom_scale / CELL_SIZE = (gx : ℚ) := by
    rw [← hkx, CELL_SIZE]
    field_simp
  have hy : ((ky : ℚ) - st.pan_offset_y) / st.zoom_scale / CELL_SIZE = (gy : ℚ) := by
    rw [← hky, CELL_SIZE]
    field_simp
  simp [get_grid_position, screenToGridQ, hx, hy, Int.floor_intCast]

/-- Witness for C5 (amended) at a concrete state and cell. -/
theorem C5_roundtrip_integral_pixels_witness :
    (0 < initState.zoom_scale ∧ initState.zoom_scale ≤ 3 ∧
      (0:Int) ≤ 5 ∧ (5:Int) < (initState.grid_columns : Int) ∧
      (0:Int) ≤ 7 ∧ (7:Int) < (initState.grid_rows : Int) ∧
      (5 : ℚ) * CELL_SIZE * initState.zoom_scale + initState.pan_offset_x = (300 : ℚ)) ∧
    get_grid_position initState (get_pixel_position initState (5, 7)).1
      (get_pixel_position initState (5, 7)).2 = (5, 7) :=
  ⟨⟨by norm_num [initState], by norm_num [initState], by norm_num,
    by norm_num [initState], by norm_num, by norm_num [initState],
    by norm_num [initState, CELL_SIZE]⟩,
   C5_roundtrip_integral_pixels initState 5 7 300 420
    (by norm_num [initState]) (by norm_num [initState])
    (by norm_num) (by norm_num [initState])
    (by norm_num) (by norm_num [initState])
    (by norm_num [initState, CELL_SIZE]) (by norm_num [initState, CELL_SIZE])⟩

/-- The state used to refute C5 as stated: zoom 1 (inside [0.25, 3]) and a
fractional pan offset of one half pixel. -/
def c5State : AppState :=
  { initState with pan_offset_x := 1/2 }

/-- C5 counterexample: with zoom 1 and pan offset x = 0.5, the in-range cell
(1, 0) maps to pixel (60, 0) (the exact value 60.5 is truncated by int()),
and mapping that pixel back yields cell (0, 0), not (1, 0). -/
theorem C5_counterexample :
    0 < c5State.zoom_scale ∧ c5State.zoom_scale ≤ 3 ∧
    (0:Int) ≤ 1 ∧ (1:Int) < (c5State.grid_columns : Int) ∧
    get_pixel_position c5State (1, 0) = (60, 0) ∧
    get_grid_position c5State 60 0 = (0, 0) := by
  refine ⟨by norm_num [c5State, initState], by norm_num [c5State, initState],
    by norm_num, by norm_num [c5State, initState], ?_, ?_⟩
  · simp only [get_pixel_position, truncQ, c5State, initState, CELL_SIZE]
    norm_num
  · simp only [get_grid_position, screenToGridQ, c5State, initState, CELL_SIZE]
    norm_num

/-- A drag payload item: {path, bank_index} (grid_canvas.py / image_bank.py). -/
structure DragItem where
  path : String
  bank_index : Option Int
deriving DecidableEq, Repr

/-- The decoded mime text of a drop event.  The constructors correspond to the
parse outcomes of InfiniteGridCanvas.dropEvent:
* `multi items` — JSON object with a "multi" key; legacy list-of-strings
  entries are normalized to bank_index = none, as the code does;
* `tileMove item` — text with the TILE: prefix (a single tile moved from the grid);
* `singleJson item` — other JSON object: {path, bank_index} from the bank;
* `raw text` — anything else (unparseable text / non-object JSON), which the
  code falls back to treating as a legacy plain file path. -/
inductive Payload where
  | multi (items : List DragItem)
  | tileMove (item : DragItem)
  | singleJson (item : DragItem)
  | raw (text : String)
deriving DecidableEq, Repr

/-- GridTile.__init__ followed by show(): a fresh, shown, unselected tile. -/
def newTile (path : String) (bank_index : Option Int) : Tile :=
  { file_path := path, original_bank_index := bank_index,
    selected := false, visible := true }

/-- tile.show() -/
def showTile (t : Tile) : Tile := { t with visible := true }

/-- tile.hide() -/
def hideTile (t : Tile) : Tile := { t with visible := false }

/-- tile.set_selected(False) -/
def deselectTile (t : Tile) : Tile := { t with selected := false }

/-- InfiniteGridCanvas.validate_multi_drop_positions.  Faithful to the source:
only the upper bounds (grid_x + i >= columns, grid_y >= rows) are checked,
never `grid_x + i < 0` or `grid_y < 0`. -/
def validate_multi_drop_positions (st : AppState) (grid_x grid_y : Int)
    (num_images : Nat) : Bool :=
  (List.range num_images).all fun i =>
    !decide ((st.grid_columns : Int) ≤ grid_x + (i : Int)) &&
    !decide ((st.grid_rows : Int) ≤ grid_y) &&
    !dictContains (grid_x + (i : Int), grid_y) st.tiles

/-- The single-drop guard of dropEvent:
`0 <= grid_x < columns and 0 <= grid_y < rows and grid_pos not in tiles`. -/
def singleDropAllowed (st : AppState) (p : Pos) : Bool :=
  decide (0 ≤ p.1) && decide (p.1 < (st.grid_columns : Int)) &&
  decide (0 ≤ p.2) && decide (p.2 < (st.grid_rows : Int)) &&
  !dictContains p st.tiles

/-- The placement loop of dropEvent's multi branch: the i-th item goes to cell
(grid_x + i, grid_y); a tile hidden by the multi-drag is reused when its
file_path matches (first match in dragged_tiles order), otherwise a new tile
is created.  When dragged_tiles is absent or empty the code takes the
create-new loop, which coincides with a search in an empty dict. -/
def placeMultiItems (st : AppState) (grid_x grid_y : Int)
    (items : List DragItem) : List (Pos × Tile) :=
  items.enum.foldl
    (fun d x =>
      dictInsert (grid_x + (x.1 : Int), grid_y)
        (match (st.dragged_tiles.getD []).find?
            (fun qt => decide (qt.2.file_path = x.2.path)) with
         | some qt => showTile qt.2
         | none => newTile x.2.path x.2.bank_index)
        d)
    st.tiles

/-- InfiniteGridCanvas.dropEvent once the target grid cell is known.  Returns
the new state and whether the event was accepted (acceptProposedAction). -/
def dropEventAt (st : AppState) (payload : Payload) (gp : Pos) : AppState × Bool :=
  match payload with
  | .multi items =>
      if validate_multi_drop_positions st gp.1 gp.2 items.length then
        ({ st with tiles := placeMultiItems st gp.1 gp.2 items }, true)
      else (st, false)
  | .tileMove _ =>
      if singleDropAllowed st gp then
        match st.dragged_tile with
        | some t =>
            ({ st with tiles := dictInsert gp (showTile t) st.tiles }, true)
        | none => (st, false)
      else (st, false)
  | .singleJson item =>
      if singleDropAllowed st gp then
        ({ st with tiles := dictInsert gp (newTile item.path item.bank_index) st.tiles },
         true)
      else (st, false)
  | .raw text =>
      if singleDropAllowed st gp then
        ({ st with tiles := dictInsert gp (newTile text none) st.tiles }, true)
      else (st, false)

/-- InfiniteGridCanvas.dropEvent: computes the grid cell under the pointer,
then dispatches on the payload. -/
def dropEvent (st : AppState) (payload : Payload) (px py : Int) : AppState × Bool :=
  dropEventAt st payload (get_grid_position st px py)

/-- ImageViewer.clear_grid_selection: every tile at a currently selected
position gets set_selected(False); the set and the anchor are reset. -/
def clear_grid_selection (st : AppState) : AppState :=
  { st with
    tiles := st.tiles.map (fun qt =>
      (qt.1, if qt.1 ∈ st.selected_grid_tiles then deselectTile qt.2 else qt.2)),
    selected_grid_tiles := [],
    last_selected_grid_pos := none }

/-- ImageViewer.toggle_grid_selection. -/
def toggle_grid_selection (st : AppState) (grid_pos : Pos) : AppState :=
  match dictLookup grid_pos st.tiles with
  | none => st
  | some t =>
      if grid_pos ∈ st.selected_grid_tiles then
        { st with
          selected_grid_tiles := st.selected_grid_tiles.erase grid_pos,
          tiles := dictInsert grid_pos { t with selected := false } st.tiles,
          last_selected_grid_pos := some grid_pos }
      else
        { st with
          selected_grid_tiles := setAdd grid_pos st.selected_grid_tiles,
          tiles := dictInsert grid_pos { t with selected := true } st.tiles,
          last_selected_grid_pos := some grid_pos }

/-- The sort key of the multi-drag: `key=lambda p: (p[1], p[0])`. -/
def rcLe (p q : Pos) : Bool :=
  decide (p.2 < q.2 ∨ (p.2 = q.2 ∧ p.1 ≤ q.1))

/-- Insertion step of a stable sort by (row, column). -/
def insertRC (p : Pos) : List Pos → List Pos
  | [] => [p]
  | q :: rest => if rcLe p q then p :: q :: rest else q :: insertRC p rest

/-- `sorted(selected_positions, key=lambda p: (p[1], p[0]))`. -/
def sortByRowCol (l : List Pos) : List Pos :=
  l.foldr insertRC []

/-- GridTile.mouseMoveEvent, multi-tile branch, up to drag.exec(): the selected
tiles are collected in (row, column) order into dragged_tiles, hidden, and
removed from the occupancy dict.  The selection itself is not touched. -/
def multiDragStart (st : AppState) : AppState :=
  let selected_positions := sortByRowCol st.selected_grid_tiles
  let dts := selected_positions.filterMap
    (fun p => (dictLookup p st.tiles).map (fun t => (p, hideTile t)))
  { st with
    tiles := selected_positions.foldl (fun d p => dictErase p d) st.tiles,
    dragged_tiles := some dts }

/-- GridTile.mouseMoveEvent, multi-tile branch, result == IgnoreAction: every
dragged tile is put back at its original position and shown, dragged_tiles is
reset, and then clear_grid_selection() is called ("Clear selection even on
cancelled drag"). -/
def multiDragCancel (st : AppState) : AppState :=
  let restored := (st.dragged_tiles.getD []).foldl
    (fun d pt => dictInsert pt.1 (showTile pt.2) d) st.tiles
  clear_grid_selection { st with tiles := restored, dragged_tiles := none }

/-- InfiniteGridCanvas.remove_tiles_by_path.  The second component is the list
of destroyed tiles (deleteLater calls). -/
def remove_tiles_by_path (st : AppState) (file_path : String) : AppState × List Tile :=
  let positions_to_remove :=
    (st.tiles.filter (fun qt => decide (qt.2.file_path = file_path))).map Prod.fst
  ({ st with
     tiles := positions_to_remove.foldl (fun d p => dictErase p d) st.tiles,
     selected_grid_tiles :=
       st.selected_grid_tiles.filter (fun q => decide (q ∉ positions_to_remove)) },
   positions_to_remove.filterMap (fun p => dictLookup p st.tiles))

/-- InfiniteGridCanvas.set_grid_dimensions.  Evicts every tile with
`pos[0] >= columns or pos[1] >= rows` and destroys it; the grid selection set
is not touched by this function.  Second component: destroyed tiles. -/
def set_grid_dimensions (st : AppState) (rows columns : Nat) : AppState × List Tile :=
  let positions_to_remove := (dictKeys st.tiles).filter
    (fun p => decide ((columns : Int) ≤ p.1 ∨ (rows : Int) ≤ p.2))
  ({ st with
     grid_rows := rows, grid_columns := columns,
     tiles := positions_to_remove.foldl (fun d p => dictErase p d) st.tiles },
   positions_to_remove.filterMap (fun p => dictLookup p st.tiles))

/-- ImageViewer.import_images (also the extend in auto_load_assets): appends
the chosen files to the bank without any duplicate or placement check. -/
def import_images (st : AppState) (files : List String) : AppState :=
  { st with image_paths := st.image_paths ++ files }

/-- ImageViewer.remove_from_bank: removes the first occurrence of the path
from the bank and drops it from the bank selection. -/
def remove_from_bank (st : AppState) (file_path : String) : AppState :=
  { st with
    image_paths := st.image_paths.erase file_path,
    selected_paths := st.selected_paths.erase file_path }

/-- ClickableLabel.mouseMoveEvent, single-image branch (image_bank.py): the
payload carries the bank index of the dragged path; the canvas handles the
drop; if and only if the drop was accepted (drag result MoveAction) the path
is removed from the bank afterwards. -/
def bankDragSingle (st : AppState) (file_path : String) (px py : Int) : AppState :=
  let payload := Payload.singleJson
    ⟨file_path, some ((st.image_paths.indexOf file_path : Nat) : Int)⟩
  let r := dropEvent st payload px py
  if r.2 then remove_from_bank r.1 file_path else r.1

/-- InfiniteGridCanvas.remove_tile_at_position: converts the pixel position to
a cell and, when that cell is occupied, hides the tile and deletes the cell
from the occupancy dict.  The grid selection set is not touched.  The hidden
tile object itself lives on outside the dict (as the dragging GridTile /
dragged_tile), so the dict-level effect is the erase. -/
def remove_tile_at_position (st : AppState) (px py : Int) : AppState :=
  if dictContains (get_grid_position st px py) st.tiles then
    { st with tiles := dictErase (get_grid_position st px py) st.tiles }
  else st

/-- InfiniteGridCanvas.add_tile_at_position (used to restore a cancelled
single-tile drag): converts the pixel position to a cell, re-inserts the tile
there and shows it. -/
def add_tile_at_position (st : AppState) (t : Tile) (px py : Int) : AppState :=
  { st with
    tiles := dictInsert (get_grid_position st px py) (showTile t) st.tiles }

/-- GridTile.mouseMoveEvent, single-tile branch: the canvas records the tile
under (px, py) — the tile's own widget position, hence its occupied cell; an
empty cell means there is no tile to drag and the gesture cannot occur — as
dragged_tile, remove_tile_at_position hides it and vacates its cell, the
canvas dropEvent decides the TILE: drop at the target pixel (tx, ty), a
rejected drop (IgnoreAction) restores the tile at its original position via
add_tile_at_position, and finally dragged_tile is reset.  No step touches
the grid selection set. -/
def singleDragMove (st : AppState) (px py tx ty : Int) : AppState :=
  match dictLookup (get_grid_position st px py) st.tiles with
  | none => st
  | some t =>
      let st1 := remove_tile_at_position
        { st with dragged_tile := some (hideTile t) } px py
      let r := dropEvent st1
        (Payload.tileMove ⟨t.file_path, t.original_bank_index⟩) tx ty
      let st2 := if r.2 then r.1 else add_tile_at_position r.1 (hideTile t) px py
      { st2 with dragged_tile := none }

lemma dictLookup_insert_self (p : Pos) (t : Tile) (d : List (Pos × Tile)) :
    dictLookup p (dictInsert p t d) = some t := by
  induction d with
  | nil => simp [dictInsert, dictLookup]
  | cons head rest ih =>
      obtain ⟨q, u⟩ := head
      by_cases h : q = p
      · subst h; simp [dictInsert, dictLookup]
      · simp [dictInsert, dictLookup, h, ih]

lemma dictLookup_insert_ne (p q : Pos) (t : Tile) (d : List (Pos × Tile))
    (h : q ≠ p) : dictLookup q (dictInsert p t d) = dictLookup q d := by
  have hp : p ≠ q := Ne.symm h
  induction d with
  | nil => simp [dictInsert, dictLookup, hp]
  | cons head rest ih =>
      obtain ⟨k, u⟩ := head
      by_cases hk : k = p
      · subst hk
        simp only [dictInsert, if_pos rfl]
        simp [dictLookup, hp]
      · by_cases hq : k = q
        · subst hq; simp [dictInsert, hk, dictLookup]
        · simp [dictInsert, hk, dictLookup, hq, ih]

lemma dictLookup_erase_self (p : Pos) (d : List (Pos × Tile)) :
    dictLookup p (dictErase p d) = none := by
  induction d with
  | nil => simp [dictErase, dictLookup]
  | cons head rest ih =>
      obtain ⟨q, u⟩ := head
      by_cases h : q = p
      · simp [dictErase, h, ih]
      · simp [dictErase, dictLookup, h, ih]

lemma dictLookup_erase_ne (p q : Pos) (d : List (Pos × Tile))
    (h : q ≠ p) : dictLookup q (dictErase p d) = dictLookup q d := by
  induction d with
  | nil => simp [dictErase]
  | cons head rest ih =>
      obtain ⟨k, u⟩ := head
      by_cases hk : k = p
      · subst hk
        have : ¬ k = q := fun hh => h (hh ▸ rfl)
        simp [dictErase, dictLookup, this, ih]
      · by_cases hq : k = q
        · subst hq; simp [dictErase, hk, dictLookup]
        · simp [dictErase, hk, dictLookup, hq, ih]

lemma dictContains_eq_false_iff (p : Pos) (d : List (Pos × Tile)) :
    dictContains p d = false ↔ dictLookup p d = none := by
  unfold dictContains
  cases dictLookup p d <;> simp

lemma mem_dictKeys_iff (p : Pos) (d : List (Pos × Tile)) :
    p ∈ dictKeys d ↔ (dictLookup p d).isSome = true := by
  induction d with
  | nil => simp [dictKeys, dictLookup]
  | cons head rest ih =>
      obtain ⟨k, u⟩ := head
      have hcons : dictKeys ((k, u) :: rest) = k :: dictKeys rest := rfl
      by_cases hk : k = p
      · subst hk; simp [hcons, dictLookup]
      · rw [hcons]
        simp only [List.mem_cons, dictLookup, if_neg hk]
        rw [← ih]
        simp [Ne.symm hk]

lemma dictKeys_insert (p : Pos) (t : Tile) (d : List (Pos × Tile)) :
    dictKeys (dictInsert p t d) =
      if p ∈ dictKeys d then dictKeys d else dictKeys d ++ [p] := by
  induction d with
  | nil => simp [dictKeys, dictInsert]
  | cons head rest ih =>
      obtain ⟨k, u⟩ := head
      by_cases hk : k = p
      · subst hk; simp [dictKeys, dictInsert]
      · have h1 : dictInsert p t ((k, u) :: rest) = (k, u) :: dictInsert p t rest := by
          simp [dictInsert, hk]
        have h2 : dictKeys ((k, u) :: dictInsert p t rest)
            = k :: dictKeys (dictInsert p t rest) := rfl
        have h3 : dictKeys ((k, u) :: rest) = k :: dictKeys rest := rfl
        rw [h1, h2, h3, ih]
        by_cases hmem : p ∈ dictKeys rest
        · rw [if_pos hmem, if_pos (List.mem_cons.mpr (Or.inr hmem))]
        · rw [if_neg hmem, if_neg ?_]
          · rfl
          · intro hc
            rcases List.mem_cons.mp hc with hc | hc
            · exact hk hc.symm
            · exact hmem hc

lemma nodup_dictKeys_insert (p : Pos) (t : Tile) (d : List (Pos × Tile))
    (h : (dictKeys d).Nodup) : (dictKeys (dictInsert p t d)).Nodup := by
  rw [dictKeys_insert]
  split
  · exact h
  · next hmem => simp [List.nodup_append, h, hmem]

lemma dictKeys_erase (p : Pos) (d : List (Pos × Tile)) :
    dictKeys (dictErase p d) = (dictKeys d).filter (fun q => !decide (q = p)) := by
  induction d with
  | nil => rfl
  | cons head rest ih =>
      obtain ⟨k, u⟩ := head
      simp only [dictKeys] at ih ⊢
      by_cases hk : k = p
      · subst hk
        simp [dictErase, List.filter_cons, ih]
      · simp [dictErase, hk, List.filter_cons, ih]

lemma dictLookup_foldl_erase (L : List Pos) (d : List (Pos × Tile)) (q : Pos) :
    dictLookup q (L.foldl (fun d p => dictErase p d) d) =
      if q ∈ L then none else dictLookup q d := by
  induction L generalizing d with
  | nil => simp
  | cons k rest ih =>
      simp only [List.foldl_cons, ih]
      by_cases hk : q = k
      · subst hk
        simp [dictLookup_erase_self]
      · simp [List.mem_cons, hk, dictLookup_erase_ne k q d hk]

lemma find?_eq_none_of_not_mem_keys (L : List (Pos × Tile)) (q : Pos)
    (h : q ∉ L.map Prod.fst) :
    L.find? (fun pt => decide (pt.1 = q)) = none := by
  induction L with
  | nil => rfl
  | cons head rest ih =>
      obtain ⟨k, u⟩ := head
      simp only [List.map_cons, List.mem_cons, not_or] at h
      rw [List.find?_cons_of_neg _ (by simpa using Ne.symm h.1)]
      exact ih h.2

lemma dictLookup_foldl_insert (g : Tile → Tile) (L : List (Pos × Tile))
    (d : List (Pos × Tile)) (q : Pos) (hnd : (L.map Prod.fst).Nodup) :
    dictLookup q (L.foldl (fun d pt => dictInsert pt.1 (g pt.2) d) d) =
      match L.find? (fun pt => decide (pt.1 = q)) with
      | some pt => some (g pt.2)
      | none => dictLookup q d := by
  induction L generalizing d with
  | nil => simp [List.find?]
  | cons head rest ih =>
      obtain ⟨k, t⟩ := head
      simp only [List.map_cons, List.nodup_cons] at hnd
      simp only [List.foldl_cons, ih _ hnd.2]
      by_cases hk : k = q
      · subst hk
        rw [find?_eq_none_of_not_mem_keys rest k hnd.1]
        simp [dictLookup_insert_self]
      · have h1 : ((k, t) :: rest).find? (fun pt => decide (pt.1 = q))
            = rest.find? (fun pt => decide (pt.1 = q)) := by
          simp [hk]
        rw [h1]
        cases hfind : rest.find? (fun pt => decide (pt.1 = q)) <;>
          simp [hfind, dictLookup_insert_ne k q (g t) d (Ne.symm hk)]

lemma dictLookup_map_select (S : List Pos) (f : Tile → Tile)
    (d : List (Pos × Tile)) (q : Pos) :
    dictLookup q (d.map (fun qt =>
        (qt.1, if qt.1 ∈ S then f qt.2 else qt.2))) =
      (dictLookup q d).map (fun t => if q ∈ S then f t else t) := by
  induction d with
  | nil => simp [dictLookup]
  | cons head rest ih =>
      obtain ⟨k, t⟩ := head
      by_cases hk : k = q
      · subst hk; simp [dictLookup, ih]
      · simp [dictLookup, hk, ih]

lemma insertRC_perm (p : Pos) (l : List Pos) :
    List.Perm (insertRC p l) (p :: l) := by
  induction l with
  | nil => exact List.Perm.refl _
  | cons q rest ih =>
      unfold insertRC
      split
      · exact List.Perm.refl _
      · exact (ih.cons q).trans (List.Perm.swap p q rest)

lemma sortByRowCol_perm (l : List Pos) : List.Perm (sortByRowCol l) l := by
  induction l with
  | nil => exact List.Perm.refl _
  | cons p rest ih =>
      exact (insertRC_perm p (sortByRowCol rest)).trans (ih.cons p)

lemma mem_sortByRowCol (q : Pos) (l : List Pos) :
    q ∈ sortByRowCol l ↔ q ∈ l :=
  (sortByRowCol_perm l).mem_iff

lemma nodup_sortByRowCol (l : List Pos) (h : l.Nodup) :
    (sortByRowCol l).Nodup :=
  (sortByRowCol_perm l).nodup_iff.mpr h

lemma map_fst_filterMap_lookup (P : List Pos) (D : List (Pos × Tile))
    (f : Tile → Tile) :
    (P.filterMap (fun p => (dictLookup p D).map (fun t => (p, f t)))).map Prod.fst
      = P.filter (fun p => dictContains p D) := by
  induction P with
  | nil => simp
  | cons p rest ih =>
      cases h : dictLookup p D <;>
        simp [List.filterMap_cons, h, dictContains, ih]

lemma find?_filterMap_lookup (P : List Pos) (D : List (Pos × Tile))
    (f : Tile → Tile) (q : Pos) (hq : q ∈ P) (t0 : Tile)
    (hl : dictLookup q D = some t0) :
    (P.filterMap (fun p => (dictLookup p D).map (fun t => (p, f t)))).find?
      (fun pt => decide (pt.1 = q)) = some (q, f t0) := by
  induction P with
  | nil => cases hq
  | cons p rest ih =>
      by_cases hpq : p = q
      · subst hpq
        have h1 : (p :: rest).filterMap
              (fun r => (dictLookup r D).map (fun t => (r, f t)))
            = (p, f t0) ::
              rest.filterMap (fun r => (dictLookup r D).map (fun t => (r, f t))) := by
          simp [List.filterMap_cons, hl]
        rw [h1]
        simp
      · have hq' : q ∈ rest := by
          rcases List.mem_cons.mp hq with h | h
          · exact absurd h.symm hpq
          · exact h
        cases h : dictLookup p D with
        | none =>
            have h1 : (p :: rest).filterMap
                  (fun r => (dictLookup r D).map (fun t => (r, f t)))
                = rest.filterMap
                    (fun r => (dictLookup r D).map (fun t => (r, f t))) := by
              simp [List.filterMap_cons, h]
            rw [h1]
            exact ih hq'
        | some t =>
            have h1 : (p :: rest).filterMap
                  (fun r => (dictLookup r D).map (fun t => (r, f t)))
                = (p, f t) ::
                  rest.filterMap (fun r => (dictLookup r D).map (fun t => (r, f t))) := by
              simp [List.filterMap_cons, h]
            rw [h1]
            rw [List.find?_cons_of_neg _ (by simpa using hpq)]
            exact ih hq'

/-- C10: calling toggle_grid_selection with a position that is not a key of
the occupancy map is a no-op: the selection set, the last-selected anchor and
every tile (hence every selected flag) are unchanged, so a plain click can
never add an unoccupied cell to the grid selection set. -/
theorem C10_toggle_unoccupied_noop (st : AppState) (grid_pos : Pos)
    (h : dictLookup grid_pos st.tiles = none) :
    toggle_grid_selection st grid_pos = st := by
  unfold toggle_grid_selection
  rw [h]

/-- Witness for C10 at the empty initial state and cell (3, 4). -/
theorem C10_toggle_unoccupied_noop_witness :
    dictLookup (3, 4) initState.tiles = none ∧
    toggle_grid_selection initState (3, 4) = initState :=
  ⟨rfl, C10_toggle_unoccupied_noop initState (3, 4) rfl⟩

/-- A state with a single placed, selected tile at (15, 2): the resize
scenario of the specification. -/
def c4State : AppState :=
  { initState with
    tiles := [((15, 2), { file_path := "a.png", original_bank_index := some 0,
                          selected := true, visible := true })],
    selected_grid_tiles := [(15, 2)],
    last_selected_grid_pos := some (15, 2) }

lemma get_grid_position_mk (gr gc : Nat) (z p0x p0y : ℚ)
    (ti : List (Pos × Tile)) (dt : Option Tile)
    (dts : Option (List (Pos × Tile))) (ip bsel : List String) (sg : List Pos)
    (lp : Option Pos) (px py : Int) :
    get_grid_position (AppState.mk gr gc z p0x p0y ti dt dts ip bsel sg lp) px py
      = screenToGridQ z p0x p0y (px : ℚ) (py : ℚ) := rfl

lemma screenToGrid_init_900_120 : screenToGridQ 1 0 0 900 120 = (15, 2) := by
  norm_num [screenToGridQ, CELL_SIZE, Prod.mk.injEq]

lemma screenToGrid_init_00 : screenToGridQ 1 0 0 0 0 = (0, 0) := by
  norm_num [screenToGridQ, CELL_SIZE, Prod.mk.injEq]

lemma dropEventAt_preserves_selection (st : AppState) (payload : Payload)
    (gp : Pos) :
    (dropEventAt st payload gp).1.selected_grid_tiles
      = st.selected_grid_tiles := by
  cases payload with
  | multi items =>
      simp only [dropEventAt]
      split <;> rfl
  | tileMove item =>
      simp only [dropEventAt]
      cases hdt : st.dragged_tile <;> split <;> rfl
  | singleJson item =>
      simp only [dropEventAt]
      split <;> rfl
  | raw text =>
      simp only [dropEventAt]
      split <;> rfl

lemma remove_tile_at_position_selected (st : AppState) (px py : Int) :
    (remove_tile_at_position st px py).selected_grid_tiles
      = st.selected_grid_tiles := by
  unfold remove_tile_at_position
  split <;> rfl

lemma add_tile_at_position_selected (st : AppState) (t : Tile) (px py : Int) :
    (add_tile_at_position st t px py).selected_grid_tiles
      = st.selected_grid_tiles := rfl

lemma singleDragMove_selected (st : AppState) (px py tx ty : Int) :
    (singleDragMove st px py tx ty).selected_grid_tiles
      = st.selected_grid_tiles := by
  unfold singleDragMove
  cases hdl : dictLookup (get_grid_position st px py) st.tiles with
  | none => rfl
  | some t =>
      simp only [dropEvent]
      split
      · rw [dropEventAt_preserves_selection, remove_tile_at_position_selected]
      · rw [add_tile_at_position_selected, dropEventAt_preserves_selection,
          remove_tile_at_position_selected]

/-- C4 counterexample: both non-delete removal paths leave the selection
stale.  Resize: set_grid_dimensions(10, 10) evicts the selected tile at
(15, 2) from the occupancy map but leaves (15, 2) in the grid selection set
(with 15 >= 10 = columns).  Move: a single-tile drag of the sole selected
tile from (15, 2) to the empty in-bounds cell (0, 0) commits — the tile is
reused at (0, 0), (15, 2) is vacated — yet (15, 2) stays in the grid
selection set, a cell that is no longer a key of the occupancy map. -/
theorem C4_counterexample :
    ((15, 2) ∈ c4State.selected_grid_tiles ∧
     dictContains (15, 2) c4State.tiles = true) ∧
    (dictLookup (15, 2) ((set_grid_dimensions c4State 10 10).1).tiles = none ∧
     (15, 2) ∈ ((set_grid_dimensions c4State 10 10).1).selected_grid_tiles ∧
     (10 : Int) ≤ 15) ∧
    (dictLookup (15, 2) (singleDragMove c4State 900 120 0 0).tiles = none ∧
     dictContains (0, 0) (singleDragMove c4State 900 120 0 0).tiles = true ∧
     (15, 2) ∈ (singleDragMove c4State 900 120 0 0).selected_grid_tiles) := by
  refine ⟨by decide, by decide, ?_, ?_, ?_⟩ <;>
  · simp [singleDragMove, c4State, initState, get_grid_position_mk,
      screenToGrid_init_900_120, screenToGrid_init_00, dictLookup, dictContains,
      remove_tile_at_position, dropEvent, dropEventAt, singleDropAllowed,
      add_tile_at_position, dictErase, dictInsert, newTile, hideTile, showTile]
    try decide

/-- C4 (amended): of the three removal means the claim lists, only deletion
maintains the invariant: remove_tiles_by_path removes the removed cells from
the grid selection set, preserving selection ⊆ occupancy.  Moving a tile
away by a single-tile drag (whether the drop commits or is cancelled) and
shrinking the grid via set_grid_dimensions both leave the grid selection set
completely unchanged, so after a committed move or a resize the selection
can contain cells that are not keys of the occupancy map — in particular,
after set_grid_dimensions(r, c) a selected position may keep x >= c. -/
theorem C4_delete_updates_selection_move_resize_do_not (st : AppState)
    (file_path : String) (rows columns : Nat) (px py tx ty : Int)
    (hsub : ∀ p ∈ st.selected_grid_tiles, dictContains p st.tiles = true) :
    (∀ p ∈ (remove_tiles_by_path st file_path).1.selected_grid_tiles,
        dictContains p (remove_tiles_by_path st file_path).1.tiles = true) ∧
    (singleDragMove st px py tx ty).selected_grid_tiles
      = st.selected_grid_tiles ∧
    (set_grid_dimensions st rows columns).1.selected_grid_tiles
      = st.selected_grid_tiles := by
  refine ⟨?_, singleDragMove_selected st px py tx ty, rfl⟩
  intro p hp
  simp only [remove_tiles_by_path, List.mem_filter, decide_eq_true_eq] at hp
  obtain ⟨hmem, hnot⟩ := hp
  have hc := hsub p hmem
  unfold dictContains at hc ⊢
  simp only [remove_tiles_by_path]
  rw [dictLookup_foldl_erase, if_neg hnot]
  exact hc

/-- Witness for C4 (amended) at the concrete scenario state. -/
theorem C4_delete_updates_selection_move_resize_do_not_witness :
    (∀ p ∈ c4State.selected_grid_tiles, dictContains p c4State.tiles = true) ∧
    (singleDragMove c4State 900 120 0 0).selected_grid_tiles
      = c4State.selected_grid_tiles :=
  ⟨by decide,
   (C4_delete_updates_selection_move_resize_do_not c4State "a.png" 10 10
      900 120 0 0 (by decide)).2.1⟩

/-- Three adjacent placed tiles, all selected: the multi-drag cancel scenario
of the specification. -/
def c1State : AppState :=
  { initState with
    tiles :=
      [((0, 0), { file_path := "a.png", original_bank_index := some 0,
                  selected := true, visible := true }),
       ((1, 0), { file_path := "b.png", original_bank_index := some 1,
                  selected := true, visible := true }),
       ((2, 0), { file_path := "c.png", original_bank_index := some 2,
                  selected := true, visible := true })],
    selected_grid_tiles := [(0, 0), (1, 0), (2, 0)],
    last_selected_grid_pos := some (2, 0) }

/-- C1 counterexample: a cancelled 3-tile multi-drag restores all three tiles
to their original cells, but the grid selection set does NOT retain its three
members: the cancel path calls clear_grid_selection ("Clear selection even on
cancelled drag") and the selection ends empty. -/
theorem C1_counterexample :
    c1State.selected_grid_tiles = [(0, 0), (1, 0), (2, 0)] ∧
    dictContains (0, 0) (multiDragCancel (multiDragStart c1State)).tiles = true ∧
    dictContains (1, 0) (multiDragCancel (multiDragStart c1State)).tiles = true ∧
    dictContains (2, 0) (multiDragCancel (multiDragStart c1State)).tiles = true ∧
    (multiDragCancel (multiDragStart c1State)).selected_grid_tiles = [] := by
  decide

/-- C1 (amended): when a grid-origin multi-item drag is cancelled, every
hidden source tile is restored to its original cell of the occupancy map and
shown again, and no tile is destroyed (every occupancy entry survives, merely
re-shown and deselected); but the grid selection set is cleared — it does NOT
retain its members, exactly like the committed path. -/
theorem C1_cancel_restores_tiles_but_clears_selection (st : AppState)
    (hnd : st.selected_grid_tiles.Nodup)
    (hsub : ∀ p ∈ st.selected_grid_tiles, (dictLookup p st.tiles).isSome = true) :
    (∀ p, dictLookup p (multiDragCancel (multiDragStart st)).tiles
        = (dictLookup p st.tiles).map (fun t =>
            if p ∈ st.selected_grid_tiles then deselectTile (showTile t) else t)) ∧
    (multiDragCancel (multiDragStart st)).selected_grid_tiles = [] ∧
    (multiDragCancel (multiDragStart st)).dragged_tiles = none := by
  refine ⟨?_, rfl, rfl⟩
  intro p
  have hPnd : (sortByRowCol st.selected_grid_tiles).Nodup :=
    nodup_sortByRowCol _ hnd
  have hdtsnd :
      (((sortByRowCol st.selected_grid_tiles).filterMap
        (fun r => (dictLookup r st.tiles).map (fun t => (r, hideTile t)))).map
          Prod.fst).Nodup := by
    rw [map_fst_filterMap_lookup]
    exact hPnd.filter _
  simp only [multiDragStart, multiDragCancel, clear_grid_selection, Option.getD_some]
  rw [dictLookup_map_select, dictLookup_foldl_insert showTile _ _ _ hdtsnd]
  by_cases hps : p ∈ st.selected_grid_tiles
  · have hpP : p ∈ sortByRowCol st.selected_grid_tiles :=
      (mem_sortByRowCol p _).mpr hps
    obtain ⟨t0, hl⟩ := Option.isSome_iff_exists.mp (hsub p hps)
    rw [find?_filterMap_lookup _ st.tiles hideTile p hpP t0 hl, hl]
    cases t0
    simp [hps, deselectTile, showTile, hideTile]
  · have hpP : p ∉ sortByRowCol st.selected_grid_tiles := by
      rw [mem_sortByRowCol]; exact hps
    have hkeys :
        p ∉ ((sortByRowCol st.selected_grid_tiles).filterMap
          (fun r => (dictLookup r st.tiles).map (fun t => (r, hideTile t)))).map
            Prod.fst := by
      rw [map_fst_filterMap_lookup]
      intro hc
      exact hpP (List.mem_of_mem_filter hc)
    rw [find?_eq_none_of_not_mem_keys _ _ hkeys]
    rw [dictLookup_foldl_erase, if_neg hpP]
    cases dictLookup p st.tiles <;> simp [hps]

/-- Witness for C1 (amended) at the 3-tile scenario state. -/
theorem C1_cancel_restores_tiles_but_clears_selection_witness :
    c1State.selected_grid_tiles.Nodup ∧
    (multiDragCancel (multiDragStart c1State)).selected_grid_tiles = [] :=
  ⟨by decide,
   (C1_cancel_restores_tiles_but_clears_selection c1State (by decide) (by decide)).2.1⟩

lemma nodupKeys_foldl_insert {β : Type} (key : β → Pos) (tl : β → Tile)
    (L : List β) (d : List (Pos × Tile)) (hnd : (dictKeys d).Nodup) :
    (dictKeys (L.foldl (fun d x => dictInsert (key x) (tl x) d) d)).Nodup := by
  induction L generalizing d with
  | nil => exact hnd
  | cons x rest ih =>
      simp only [List.foldl_cons]
      exact ih _ (nodup_dictKeys_insert _ _ _ hnd)

lemma validate_multi_iff (st : AppState) (gx gy : Int) (n : Nat) :
    validate_multi_drop_positions st gx gy n = true ↔
      ∀ i : Nat, i < n →
        gx + (i : Int) < (st.grid_columns : Int) ∧
        gy < (st.grid_rows : Int) ∧
        dictLookup (gx + (i : Int), gy) st.tiles = none := by
  unfold validate_multi_drop_positions
  rw [List.all_eq_true]
  constructor
  · intro h i hi
    have h2 := h i (List.mem_range.mpr hi)
    simp only [Bool.and_eq_true, Bool.not_eq_true', decide_eq_false_iff_not,
      not_le, dictContains_eq_false_iff] at h2
    exact ⟨h2.1.1, h2.1.2, h2.2⟩
  · intro h i hi
    have h2 := h i (List.mem_range.mp hi)
    simp only [Bool.and_eq_true, Bool.not_eq_true', decide_eq_false_iff_not,
      not_le, dictContains_eq_false_iff]
    exact ⟨⟨h2.1, h2.2.1⟩, h2.2.2⟩

lemma singleDropAllowed_iff (st : AppState) (p : Pos) :
    singleDropAllowed st p = true ↔
      (0 ≤ p.1 ∧ p.1 < (st.grid_columns : Int) ∧
       0 ≤ p.2 ∧ p.2 < (st.grid_rows : Int) ∧
       dictLookup p st.tiles = none) := by
  simp [singleDropAllowed, Bool.and_eq_true, Bool.not_eq_true',
    dictContains_eq_false_iff, decide_eq_true_eq, and_assoc]

/-- C2 (amended): a drop commits if and only if — for a multi-item payload of
N items — all N consecutive target cells satisfy only the UPPER bounds
(x+i < columns, y < rows; negative coordinates are never rejected) and are
unoccupied; for a single-item payload the single target cell must be fully
in-bounds (0 ≤ x < columns, 0 ≤ y < rows) and unoccupied, and a TILE: move
additionally requires the dragged-tile reference to be present.  Whenever the
drop is rejected the whole state, in particular the occupancy map, is
unchanged. -/
theorem C2_drop_commit_characterization (st : AppState) (payload : Payload)
    (px py : Int) :
    ((dropEvent st payload px py).2 = true ↔
      (match payload with
       | Payload.multi items =>
           ∀ i : Nat, i < items.length →
             (get_grid_position st px py).1 + (i : Int) < (st.grid_columns : Int) ∧
             (get_grid_position st px py).2 < (st.grid_rows : Int) ∧
             dictLookup ((get_grid_position st px py).1 + (i : Int),
               (get_grid_position st px py).2) st.tiles = none
       | Payload.tileMove _ =>
           (0 ≤ (get_grid_position st px py).1 ∧
            (get_grid_position st px py).1 < (st.grid_columns : Int) ∧
            0 ≤ (get_grid_position st px py).2 ∧
            (get_grid_position st px py).2 < (st.grid_rows : Int) ∧
            dictLookup (get_grid_position st px py) st.tiles = none) ∧
           st.dragged_tile ≠ none
       | Payload.singleJson _ =>
           0 ≤ (get_grid_position st px py).1 ∧
           (get_grid_position st px py).1 < (st.grid_columns : Int) ∧
           0 ≤ (get_grid_position st px py).2 ∧
           (get_grid_position st px py).2 < (st.grid_rows : Int) ∧
           dictLookup (get_grid_position st px py) st.tiles = none
       | Payload.raw _ =>
           0 ≤ (get_grid_position st px py).1 ∧
           (get_grid_position st px py).1 < (st.grid_columns : Int) ∧
           0 ≤ (get_grid_position st px py).2 ∧
           (get_grid_position st px py).2 < (st.grid_rows : Int) ∧
           dictLookup (get_grid_position st px py) st.tiles = none)) ∧
    ((dropEvent st payload px py).2 = false →
      (dropEvent st payload px py).1 = st) := by
  unfold dropEvent
  cases payload with
  | multi items =>
      simp only [dropEventAt]
      by_cases hval : validate_multi_drop_positions st
          (get_grid_position st px py).1 (get_grid_position st px py).2
          items.length = true
      · rw [if_pos hval]
        refine ⟨iff_of_true rfl ?_, by simp⟩
        exact (validate_multi_iff st _ _ items.length).mp hval
      · rw [if_neg hval]
        refine ⟨iff_of_false (by simp) ?_, fun _ => rfl⟩
        intro hc
        exact hval ((validate_multi_iff st _ _ items.length).mpr hc)
  | tileMove item =>
      simp only [dropEventAt]
      by_cases hallow : singleDropAllowed st (get_grid_position st px py) = true
      · rw [if_pos hallow]
        cases hdt : st.dragged_tile with
        | none =>
            refine ⟨iff_of_false (by simp) ?_, fun _ => rfl⟩
            intro hc
            exact hc.2 rfl
        | some t =>
            refine ⟨iff_of_true rfl ?_, by simp⟩
            exact ⟨(singleDropAllowed_iff st _).mp hallow, by simp⟩
      · rw [if_neg hallow]
        refine ⟨iff_of_false (by simp) ?_, fun _ => rfl⟩
        intro hc
        exact hallow ((singleDropAllowed_iff st _).mpr hc.1)
  | singleJson item =>
      simp only [dropEventAt]
      by_cases hallow : singleDropAllowed st (get_grid_position st px py) = true
      · rw [if_pos hallow]
        exact ⟨iff_of_true rfl ((singleDropAllowed_iff st _).mp hallow), by simp⟩
      · rw [if_neg hallow]
        refine ⟨iff_of_false (by simp) ?_, fun _ => rfl⟩
        intro hc
        exact hallow ((singleDropAllowed_iff st _).mpr hc)
  | raw text =>
      simp only [dropEventAt]
      by_cases hallow : singleDropAllowed st (get_grid_position st px py) = true
      · rw [if_pos hallow]
        exact ⟨iff_of_true rfl ((singleDropAllowed_iff st _).mp hallow), by simp⟩
      · rw [if_neg hallow]
        refine ⟨iff_of_false (by simp) ?_, fun _ => rfl⟩
        intro hc
        exact hallow ((singleDropAllowed_iff st _).mpr hc)

lemma cell_init_00 : get_grid_position initState 0 0 = (0, 0) := by
  norm_num [get_grid_position, screenToGridQ, initState, CELL_SIZE, Prod.mk.injEq]

lemma cell_init_neg : get_grid_position initState (-120) 0 = (-2, 0) := by
  norm_num [get_grid_position, screenToGridQ, initState, CELL_SIZE, Prod.mk.injEq]

/-- Witness for C2 (amended): a bank drop at cell (0, 0) of the empty initial
state commits. -/
theorem C2_drop_commit_characterization_witness :
    (dropEvent initState (Payload.singleJson ⟨"w.png", some 0⟩) 0 0).2 = true :=
  (C2_drop_commit_characterization initState (Payload.singleJson ⟨"w.png", some 0⟩)
    0 0).1.mpr (by rw [cell_init_00]; decide)

/-- C2 counterexample: a multi-item payload dropped at pixel (-120, 0) of the
fresh 20x20 state targets the out-of-bounds cell (-2, 0), yet the drop
commits (the code only checks the upper bounds), placing tiles at the
negative cells (-2, 0) and (-1, 0). -/
theorem C2_counterexample :
    get_grid_position initState (-120) 0 = (-2, 0) ∧
    ¬ ((0:Int) ≤ -2) ∧
    (dropEvent initState
      (Payload.multi [⟨"a.png", some 0⟩, ⟨"b.png", some 1⟩]) (-120) 0).2 = true ∧
    dictLookup (-2, 0) (dropEvent initState
      (Payload.multi [⟨"a.png", some 0⟩, ⟨"b.png", some 1⟩]) (-120) 0).1.tiles
      = some (newTile "a.png" (some 0)) ∧
    dictLookup (-1, 0) (dropEvent initState
      (Payload.multi [⟨"a.png", some 0⟩, ⟨"b.png", some 1⟩]) (-120) 0).1.tiles
      = some (newTile "b.png" (some 1)) := by
  refine ⟨cell_init_neg, by norm_num, ?_, ?_, ?_⟩ <;>
  · simp only [dropEvent, cell_init_neg]
    decide

/-- C7 (amended): a payload that is neither JSON-multi nor TILE:-prefixed nor
a well-formed single JSON object is NOT ignored: the code falls back to
interpreting the raw text as a legacy plain file path, and when the target
cell is in-bounds and unoccupied it accepts the drop and creates a tile whose
file_path is the raw text.  Only when the target cell is invalid or occupied
is the drop ignored with the state unchanged. -/
theorem C7_raw_payload_creates_tile (st : AppState) (text : String)
    (px py : Int) :
    ((dropEvent st (Payload.raw text) px py).2 = true ↔
      (0 ≤ (get_grid_position st px py).1 ∧
       (get_grid_position st px py).1 < (st.grid_columns : Int) ∧
       0 ≤ (get_grid_position st px py).2 ∧
       (get_grid_position st px py).2 < (st.grid_rows : Int) ∧
       dictLookup (get_grid_position st px py) st.tiles = none)) ∧
    ((dropEvent st (Payload.raw text) px py).2 = true →
      dictLookup (get_grid_position st px py)
        (dropEvent st (Payload.raw text) px py).1.tiles
        = some (newTile text none)) ∧
    ((dropEvent st (Payload.raw text) px py).2 = false →
      (dropEvent st (Payload.raw text) px py).1 = st) := by
  unfold dropEvent
  simp only [dropEventAt]
  by_cases hallow : singleDropAllowed st (get_grid_position st px py) = true
  · rw [if_pos hallow]
    refine ⟨iff_of_true rfl ((singleDropAllowed_iff st _).mp hallow), ?_, by simp⟩
    intro _
    exact dictLookup_insert_self _ _ _
  · rw [if_neg hallow]
    refine ⟨iff_of_false (by simp) ?_, by simp, fun _ => rfl⟩
    intro hc
    exact hallow ((singleDropAllowed_iff st _).mpr hc)

/-- Witness for C7 (amended) at the empty initial state. -/
theorem C7_raw_payload_creates_tile_witness :
    (dropEvent initState (Payload.raw "w.png") 0 0).2 = true :=
  (C7_raw_payload_creates_tile initState "w.png" 0 0).1.mpr
    (by rw [cell_init_00]; decide)

/-- C7 counterexample: dropping the unparseable mime text "certainly not json"
on the empty in-bounds cell (0, 0) is accepted and creates a tile whose
file_path is that raw text — the drop is not ignored. -/
theorem C7_counterexample :
    (dropEvent initState (Payload.raw "certainly not json") 0 0).2 = true ∧
    dictLookup (0, 0)
      (dropEvent initState (Payload.raw "certainly not json") 0 0).1.tiles
      = some (newTile "certainly not json" none) := by
  constructor <;>
  · simp only [dropEvent, cell_init_00]
    decide

lemma get_grid_position_import (st : AppState) (files : List String)
    (px py : Int) :
    get_grid_position (import_images st files) px py
      = get_grid_position st px py := rfl

/-- The bank state holding one imported image. -/
def c3W : AppState := import_images initState ["a.png"]

lemma cell_c3W_00 : get_grid_position c3W 0 0 = (0, 0) := by
  rw [show get_grid_position c3W 0 0 = get_grid_position initState 0 0 from rfl,
    cell_init_00]

/-- C3 counterexample: place the only bank copy of a.png on the grid (which
removes it from the bank), then import a.png again.  The resulting state —
reached only through public operations — has a.png both in the bank and in
the occupancy map, violating the exclusivity invariant: import_images never
checks existing placements. -/
theorem C3_counterexample :
    "a.png" ∈ (import_images (bankDragSingle c3W "a.png" 0 0) ["a.png"]).image_paths ∧
    (dictLookup (0, 0)
        (import_images (bankDragSingle c3W "a.png" 0 0) ["a.png"]).tiles).map
      Tile.file_path = some "a.png" := by
  constructor <;>
  · simp only [bankDragSingle, dropEvent, cell_c3W_00]
    decide

/-- C3 (amended): committing a bank-to-grid drop does remove the dropped path
from the bank (provided the bank holds at most one copy — imports can create
duplicates), places the tile at the target cell, and the occupancy dict keeps
at most one tile per cell (its key list stays duplicate-free).  The global
"never simultaneously banked and placed" invariant fails for reachable
states, because import_images performs no exclusivity check (see the
counterexample). -/
theorem C3_bank_commit_exclusivity (st : AppState) (file_path : String)
    (px py : Int)
    (hcount : st.image_paths.count file_path ≤ 1)
    (hnd : (dictKeys st.tiles).Nodup)
    (hacc : (dropEvent st (Payload.singleJson
        ⟨file_path, some ((st.image_paths.indexOf file_path : Nat) : Int)⟩)
        px py).2 = true) :
    file_path ∉ (bankDragSingle st file_path px py).image_paths ∧
    dictLookup (get_grid_position st px py)
        (bankDragSingle st file_path px py).tiles
      = some (newTile file_path
          (some ((st.image_paths.indexOf file_path : Nat) : Int))) ∧
    (dictKeys (bankDragSingle st file_path px py).tiles).Nodup := by
  unfold bankDragSingle
  unfold dropEvent dropEventAt at hacc ⊢
  by_cases hallow : singleDropAllowed st (get_grid_position st px py) = true
  · simp only [hallow, eq_self_iff_true, if_true, remove_from_bank]
    refine ⟨?_, dictLookup_insert_self _ _ _, nodup_dictKeys_insert _ _ _ hnd⟩
    intro hmem
    have h1 : (st.image_paths.erase file_path).count file_path = 0 := by
      rw [List.count_erase_self]
      omega
    rw [← List.count_pos_iff] at hmem
    omega
  · simp [hallow] at hacc

/-- Witness for C3 (amended): dropping the single banked copy of a.png at
cell (0, 0) removes it from the bank. -/
theorem C3_bank_commit_exclusivity_witness :
    "a.png" ∉ (bankDragSingle c3W "a.png" 0 0).image_paths :=
  (C3_bank_commit_exclusivity c3W "a.png" 0 0 (by decide) (by decide)
    (by simp only [dropEvent, cell_c3W_00]
        decide)).1

/-- tiles entry of the persisted document (project_manager.py save_project /
external interface section of the spec). -/
structure SavedTile where
  grid_x : Int
  grid_y : Int
  file_path : String
  original_bank_index : Option Int
deriving DecidableEq, Repr

/-- "grid" section of the persisted document. -/
structure GridSection where
  rows : Nat
  columns : Nat
  zoom_scale : ℚ
  pan_offset_x : ℚ
  pan_offset_y : ℚ
deriving DecidableEq, Repr

/-- "ui_state" section of the persisted document. -/
structure UIState where
  selected_grid_positions : List Pos
  selected_bank_paths : List String
deriving DecidableEq, Repr

/-- A parsed project document; `none` fields model absent top-level keys.
Sub-entries are modelled well-shaped, which is the shape save_project
produces. -/
structure RawDoc where
  version : Option Int
  grid : Option GridSection
  tiles : Option (List SavedTile)
  bank : Option (List String)
  ui_state : Option UIState
deriving DecidableEq, Repr

/-- ProjectManager.save_project: builds the versioned document from the live
state. -/
def save_project (st : AppState) : RawDoc :=
  { version := some 1,
    grid := some ⟨st.grid_rows, st.grid_columns, st.zoom_scale,
                  st.pan_offset_x, st.pan_offset_y⟩,
    tiles := some (st.tiles.map (fun qt =>
      ⟨qt.1.1, qt.1.2, qt.2.file_path, qt.2.original_bank_index⟩)),
    bank := some st.image_paths,
    ui_state := some ⟨st.selected_grid_tiles, st.selected_paths⟩ }

/-- ProjectManager.load_project.  `input = none` models an unreadable or
unparseable file.  Fails (returns none, no partial load) when the version is
not 1 or a required key ("grid", "tiles", "bank") is absent.  On success the
tiles and bank entries whose files do not exist are filtered out (bank order
preserved), and the second component is missing_images: the file paths of the
missing TILES only — these are the only ones counted in the printed warning;
missing bank entries are dropped silently. -/
def pm_load_project (input : Option RawDoc) (fileExists : String → Bool) :
    Option (RawDoc × List String) :=
  match input with
  | none => none
  | some doc =>
      if doc.version ≠ some 1 then none
      else
        match doc.grid, doc.tiles, doc.bank with
        | some _, some ts, some bk =>
            some ({ doc with
                    tiles := some (ts.filter (fun t => fileExists t.file_path)),
                    bank := some (bk.filter fileExists) },
                  (ts.filter (fun t => !fileExists t.file_path)).map
                    SavedTile.file_path)
        | _, _, _ => none

/-- C9 (amended): load fails — with no partial load — iff the file is
unreadable/unparseable, the version differs from 1, or a required key
("grid", "tiles", "bank") is absent; otherwise it succeeds even when
referenced files are missing, dropping exactly the tiles and bank entries
whose files do not exist, preserving the surviving bank order, and reporting
as missing only the missing tile paths (missing bank entries are not
counted). -/
theorem C9_load_characterization (input : Option RawDoc)
    (fileExists : String → Bool) :
    (pm_load_project input fileExists = none ↔
      (input = none ∨ ∃ doc, input = some doc ∧
        (doc.version ≠ some 1 ∨ doc.grid = none ∨ doc.tiles = none ∨
         doc.bank = none))) ∧
    (∀ doc out missing, input = some doc →
      pm_load_project input fileExists = some (out, missing) →
      out.tiles = some ((doc.tiles.getD []).filter (fun t => fileExists t.file_path)) ∧
      out.bank = some ((doc.bank.getD []).filter fileExists) ∧
      out.grid = doc.grid ∧ out.version = doc.version ∧
      out.ui_state = doc.ui_state ∧
      missing = ((doc.tiles.getD []).filter
        (fun t => !fileExists t.file_path)).map SavedTile.file_path) := by
  cases input with
  | none =>
      refine ⟨by simp [pm_load_project], ?_⟩
      intro doc out missing h
      cases h
  | some doc =>
      by_cases hv : doc.version = some 1
      · cases hg : doc.grid with
        | none =>
            refine ⟨?_, ?_⟩
            · simp [pm_load_project, hv, hg]
            · intro doc' out missing hdoc heq
              cases hdoc
              simp [pm_load_project, hv, hg] at heq
        | some g =>
            cases ht : doc.tiles with
            | none =>
                refine ⟨?_, ?_⟩
                · simp [pm_load_project, hv, hg, ht]
                · intro doc' out missing hdoc heq
                  cases hdoc
                  simp [pm_load_project, hv, hg, ht] at heq
            | some ts =>
                cases hb : doc.bank with
                | none =>
                    refine ⟨?_, ?_⟩
                    · simp [pm_load_project, hv, hg, ht, hb]
                    · intro doc' out missing hdoc heq
                      cases hdoc
                      simp [pm_load_project, hv, hg, ht, hb] at heq
                | some bk =>
                    refine ⟨?_, ?_⟩
                    · simp [pm_load_project, hv, hg, ht, hb]
                    · intro doc' out missing hdoc heq
                      cases hdoc
                      simp only [pm_load_project, if_neg (not_not.mpr hv),
                        hg, ht, hb, Option.some.injEq, Prod.mk.injEq] at heq
                      obtain ⟨hout, hmiss⟩ := heq
                      subst hout
                      subst hmiss
                      simp [hg, ht, hb]
      · refine ⟨?_, ?_⟩
        · simp [pm_load_project, hv]
        · intro doc' out missing hdoc heq
          cases hdoc
          simp [pm_load_project, hv] at heq

/-- Witness for C9: an unreadable file fails to load. -/
theorem C9_load_characterization_witness :
    pm_load_project none (fun _ => true) = none :=
  (C9_load_characterization none (fun _ => true)).1.mpr (Or.inl rfl)

/-- A document referencing 5 bank images and no tiles. -/
def c9Doc : RawDoc :=
  { version := some 1, grid := some ⟨20, 20, 1, 0, 0⟩, tiles := some [],
    bank := some ["a.png", "b.png", "c.png", "d.png", "e.png"],
    ui_state := none }

/-- An existence check under which b.png and d.png are missing. -/
def c9Exists : String → Bool :=
  fun s => !(s == "b.png" || s == "d.png")

/-- C9 counterexample: loading a document whose bank references 5 images, 2 of
which are missing, succeeds with the 3 surviving bank paths in their original
relative order — but the reported missing count (missing_images, which only
collects missing TILE paths) is 0, not 2 as the specification expects. -/
theorem C9_counterexample :
    c9Exists "b.png" = false ∧ c9Exists "d.png" = false ∧
    (pm_load_project (some c9Doc) c9Exists).map
      (fun r => (r.1.bank, r.2.length))
      = some (some ["a.png", "c.png", "e.png"], 0) := by
  decide

/-- tile.set_selected(True) -/
def selectTile (t : Tile) : Tile := { t with selected := true }

/-- grid_canvas.py add_tile_from_data: a tile rebuilt from saved data
(created unselected, shown, positioned at its saved cell). -/
def savedTile_to_pair (t : SavedTile) : Pos × Tile :=
  ((t.grid_x, t.grid_y), newTile t.file_path t.original_bank_index)

/-- ImageViewer.load_project applied to a successfully loaded document:
clears the grid (destroying all tiles and the grid selection), replaces the
bank, restores grid geometry and viewport, re-creates each saved tile in a
fresh occupancy dict, then restores only those saved selections whose
identity still exists (saved grid positions that are occupied, saved bank
paths that are in the bank). -/
def viewer_load_project (st : AppState) (doc : RawDoc) : AppState :=
  let g := doc.grid.getD ⟨20, 20, 1, 0, 0⟩
  let ts := doc.tiles.getD []
  let bk := doc.bank.getD []
  let st2 : AppState :=
    { st with
      tiles := (ts.map savedTile_to_pair).foldl
        (fun d pt => dictInsert pt.1 pt.2 d) [],
      image_paths := bk,
      selected_paths := [],
      selected_grid_tiles := [],
      last_selected_grid_pos := none,
      grid_rows := g.rows, grid_columns := g.columns,
      zoom_scale := g.zoom_scale,
      pan_offset_x := g.pan_offset_x, pan_offset_y := g.pan_offset_y }
  match doc.ui_state with
  | none => st2
  | some ui =>
      let selG := ui.selected_grid_positions.foldl
        (fun s p => if dictContains p st2.tiles then setAdd p s else s) []
      let selB := ui.selected_bank_paths.foldl
        (fun s q => if st2.image_paths.contains q then setAdd q s else s) []
      { st2 with
        selected_grid_tiles := selG,
        selected_paths := selB,
        tiles := st2.tiles.map (fun qt =>
          (qt.1, if qt.1 ∈ selG then selectTile qt.2 else qt.2)) }

/-- Saving and immediately re-loading, with every referenced image present. -/
def roundTrip (st : AppState) : Option AppState :=
  (pm_load_project (some (save_project st)) (fun _ => true)).map
    (fun r => viewer_load_project st r.1)

/-- The persisted data of a tile: its file_path and original_bank_index. -/
def tileData (t : Tile) : String × Option Int :=
  (t.file_path, t.original_bank_index)

/-- Equality of the observables the round-trip claim lists: grid dimensions,
viewport, tile data per cell, bank order, and both selection sets (as sets). -/
def ObsEq (s t : AppState) : Prop :=
  s.grid_rows = t.grid_rows ∧ s.grid_columns = t.grid_columns ∧
  s.zoom_scale = t.zoom_scale ∧
  s.pan_offset_x = t.pan_offset_x ∧ s.pan_offset_y = t.pan_offset_y ∧
  (∀ p, (dictLookup p s.tiles).map tileData
      = (dictLookup p t.tiles).map tileData) ∧
  s.image_paths = t.image_paths ∧
  (∀ p : Pos, p ∈ s.selected_grid_tiles ↔ p ∈ t.selected_grid_tiles) ∧
  (∀ q : String, q ∈ s.selected_paths ↔ q ∈ t.selected_paths)

lemma dictLookup_foldl_insert_plain (L : List (Pos × Tile))
    (d : List (Pos × Tile)) (q : Pos) (hnd : (L.map Prod.fst).Nodup) :
    dictLookup q (L.foldl (fun d pt => dictInsert pt.1 pt.2 d) d) =
      match L.find? (fun pt => decide (pt.1 = q)) with
      | some pt => some pt.2
      | none => dictLookup q d := by
  induction L generalizing d with
  | nil => simp [List.find?]
  | cons head rest ih =>
      obtain ⟨k, t⟩ := head
      simp only [List.map_cons, List.nodup_cons] at hnd
      simp only [List.foldl_cons, ih _ hnd.2]
      by_cases hk : k = q
      · subst hk
        rw [find?_eq_none_of_not_mem_keys rest k hnd.1]
        simp [dictLookup_insert_self]
      · have h1 : ((k, t) :: rest).find? (fun pt => decide (pt.1 = q))
            = rest.find? (fun pt => decide (pt.1 = q)) := by
          simp [hk]
        rw [h1]
        cases hfind : rest.find? (fun pt => decide (pt.1 = q)) <;>
          simp [hfind, dictLookup_insert_ne k q t d (Ne.symm hk)]

lemma dictLookup_eq_find?_snd (D : List (Pos × Tile)) (q : Pos) :
    dictLookup q D = (D.find? (fun pt => decide (pt.1 = q))).map Prod.snd := by
  induction D with
  | nil => rfl
  | cons head rest ih =>
      obtain ⟨k, t⟩ := head
      by_cases hk : k = q
      · subst hk
        simp [dictLookup]
      · rw [List.find?_cons_of_neg _ (by simpa using hk)]
        simp [dictLookup, hk, ih]

/-- save_project's tile list, re-interpreted by add_tile_from_data, is the
original occupancy list with each tile replaced by a fresh unselected shown
tile with the same file_path and original_bank_index. -/
lemma rebuild_pairs (D : List (Pos × Tile)) :
    (D.map (fun qt =>
      (⟨qt.1.1, qt.1.2, qt.2.file_path, qt.2.original_bank_index⟩ : SavedTile))).map
        savedTile_to_pair
    = D.map (fun qt => (qt.1, newTile qt.2.file_path qt.2.original_bank_index)) := by
  rw [List.map_map]
  rfl

lemma dictLookup_rebuild_newTile (D : List (Pos × Tile)) (q : Pos)
    (hnd : (dictKeys D).Nodup) :
    dictLookup q
      ((D.map (fun qt => (qt.1, newTile qt.2.file_path qt.2.original_bank_index))).foldl
        (fun d pt => dictInsert pt.1 pt.2 d) [])
    = (dictLookup q D).map
        (fun t => newTile t.file_path t.original_bank_index) := by
  have hkeys : ((D.map (fun qt =>
      (qt.1, newTile qt.2.file_path qt.2.original_bank_index))).map Prod.fst)
      = dictKeys D := by
    rw [List.map_map]
    rfl
  rw [dictLookup_foldl_insert_plain _ _ _ (by rw [hkeys]; exact hnd)]
  rw [List.find?_map]
  have hcomp : ((fun pt : Pos × Tile => decide (pt.1 = q)) ∘
      (fun qt : Pos × Tile => (qt.1, newTile qt.2.file_path qt.2.original_bank_index)))
      = fun pt : Pos × Tile => decide (pt.1 = q) := rfl
  rw [hcomp, dictLookup_eq_find?_snd D q]
  cases hf : D.find? (fun pt => decide (pt.1 = q)) <;> simp [hf, dictLookup]

lemma mem_setAdd {α : Type} [DecidableEq α] (x y : α) (s : List α) :
    x ∈ setAdd y s ↔ x = y ∨ x ∈ s := by
  unfold setAdd
  by_cases h : y ∈ s
  · rw [if_pos h]
    exact ⟨fun hx => Or.inr hx, fun hx => hx.elim (fun e => e ▸ h) id⟩
  · rw [if_neg h]
    simp [List.mem_append, or_comm]

lemma mem_foldl_setAdd_filter {α : Type} [DecidableEq α] (cond : α → Bool)
    (L s0 : List α) (x : α) :
    x ∈ L.foldl (fun s y => if cond y then setAdd y s else s) s0 ↔
      x ∈ s0 ∨ (x ∈ L ∧ cond x = true) := by
  induction L generalizing s0 with
  | nil => simp
  | cons y rest ih =>
      simp only [List.foldl_cons, ih, List.mem_cons]
      by_cases hcy : cond y = true
      · rw [if_pos hcy]
        by_cases hxy : x = y
        · subst hxy
          simp [mem_setAdd, hcy]
        · simp [mem_setAdd, hxy]
      · rw [if_neg hcy]
        by_cases hxy : x = y
        · subst hxy
          simp [hcy]
        · simp [hxy]

lemma tileData_if_select (c : Prop) [Decidable c] (t : Tile) :
    tileData (if c then selectTile t else t) = tileData t := by
  split <;> rfl

lemma roundTrip_eq (st : AppState) :
    roundTrip st = some (viewer_load_project st (save_project st)) := by
  unfold roundTrip pm_load_project
  simp [save_project, List.filter_true, List.filter_false]

lemma contains_rebuild (st : AppState) (hndk : (dictKeys st.tiles).Nodup)
    (r : Pos) :
    dictContains r
      (((st.tiles.map (fun qt =>
          (⟨qt.1.1, qt.1.2, qt.2.file_path, qt.2.original_bank_index⟩ : SavedTile))).map
        savedTile_to_pair).foldl (fun d pt => dictInsert pt.1 pt.2 d) [])
    = dictContains r st.tiles := by
  unfold dictContains
  rw [rebuild_pairs, dictLookup_rebuild_newTile _ _ hndk]
  cases dictLookup r st.tiles <;> rfl

lemma load_save_tiles (st : AppState) (hndk : (dictKeys st.tiles).Nodup)
    (p : Pos) :
    (dictLookup p (viewer_load_project st (save_project st)).tiles).map tileData
      = (dictLookup p st.tiles).map tileData := by
  have hgen : ∀ S : List Pos,
      (dictLookup p ((((st.tiles.map (fun qt =>
          (⟨qt.1.1, qt.1.2, qt.2.file_path, qt.2.original_bank_index⟩ : SavedTile))).map
            savedTile_to_pair).foldl (fun d pt => dictInsert pt.1 pt.2 d) []).map
        (fun qt => (qt.1, if qt.1 ∈ S then selectTile qt.2 else qt.2)))).map tileData
        = (dictLookup p st.tiles).map tileData := by
    intro S
    rw [dictLookup_map_select, rebuild_pairs, dictLookup_rebuild_newTile _ _ hndk]
    cases dictLookup p st.tiles with
    | none => rfl
    | some t =>
        show some (tileData (if p ∈ S then
            selectTile (newTile t.file_path t.original_bank_index)
          else newTile t.file_path t.original_bank_index)) = some (tileData t)
        rw [tileData_if_select]
        rfl
  exact hgen _

lemma load_save_selG (st : AppState) (hndk : (dictKeys st.tiles).Nodup)
    (hselG : ∀ p ∈ st.selected_grid_tiles, dictContains p st.tiles = true)
    (p : Pos) :
    p ∈ st.selected_grid_tiles ↔
      p ∈ (viewer_load_project st (save_project st)).selected_grid_tiles := by
  constructor
  · intro hp
    refine (mem_foldl_setAdd_filter _ _ _ _).mpr (Or.inr ⟨hp, ?_⟩)
    simp only [save_project, Option.getD_some]
    rw [contains_rebuild st hndk]
    exact hselG p hp
  · intro hp
    rcases (mem_foldl_setAdd_filter _ _ _ _).mp hp with h | h
    · cases h
    · exact h.1

lemma load_save_selB (st : AppState)
    (hselB : ∀ q ∈ st.selected_paths, q ∈ st.image_paths) (q : String) :
    q ∈ st.selected_paths ↔
      q ∈ (viewer_load_project st (save_project st)).selected_paths := by
  constructor
  · intro hq
    refine (mem_foldl_setAdd_filter _ _ _ _).mpr (Or.inr ⟨hq, ?_⟩)
    exact List.elem_iff.mpr (hselB q hq)
  · intro hq
    rcases (mem_foldl_setAdd_filter _ _ _ _).mp hq with h | h
    · cases h
    · exact h.1

/-- C8 (amended): save_project followed by load_project restores the grid
rows/columns, zoom, pan offsets, every tile's cell with its file_path and
original_bank_index, the bank paths in order, and the bank selection; the
grid selection is restored as the saved selection filtered to occupied cells.
Hence the round trip restores an equal state (on all the listed observables)
whenever every selected grid cell is occupied and every selected bank path is
banked.  A reachable state where the grid selection holds an unoccupied cell
(possible after a resize, see C4) loses those entries — see the
counterexample. -/
theorem C8_roundtrip_restores_observables (st : AppState)
    (hndk : (dictKeys st.tiles).Nodup)
    (hselG : ∀ p ∈ st.selected_grid_tiles, dictContains p st.tiles = true)
    (hselB : ∀ q ∈ st.selected_paths, q ∈ st.image_paths) :
    ∃ st2, roundTrip st = some st2 ∧ ObsEq st st2 := by
  refine ⟨viewer_load_project st (save_project st), roundTrip_eq st,
    rfl, rfl, rfl, rfl, rfl,
    fun p => (load_save_tiles st hndk p).symm, rfl,
    fun p => load_save_selG st hndk hselG p,
    fun q => load_save_selB st hselB q⟩

/-- Witness for C8 (amended) at the concrete three-tile selected state. -/
theorem C8_roundtrip_restores_observables_witness :
    (dictKeys c1State.tiles).Nodup ∧
    (∃ st2, roundTrip c1State = some st2 ∧ ObsEq c1State st2) :=
  ⟨by decide,
   C8_roundtrip_restores_observables c1State (by decide) (by decide) (by decide)⟩

/-- The bank state holding one imported image, pointed at cell (15, 2). -/
def c8Base : AppState := import_images initState ["a.png"]

lemma cell_c8_900_120 : get_grid_position c8Base 900 120 = (15, 2) := by
  rw [show get_grid_position c8Base 900 120
      = get_grid_position initState 900 120 from rfl]
  norm_num [get_grid_position, screenToGridQ, initState, CELL_SIZE, Prod.mk.injEq]

/-- A reachable state with a stale grid selection: import a.png, drop it at
cell (15, 2), select that cell, then shrink the grid to 10x10 (which evicts
the tile but, per C4, leaves the selection). -/
def c8State : AppState :=
  (set_grid_dimensions
    (toggle_grid_selection (bankDragSingle c8Base "a.png" 900 120) (15, 2))
    10 10).1

/-- C8 counterexample: the reachable state c8State (built only from public
operations, every referenced image existing) still has (15, 2) in its grid
selection set, but after a save/load round trip the loaded state does not:
load_project drops saved selections whose cells are unoccupied, so
deserialize(serialize(state)) differs from state. -/
theorem C8_counterexample :
    (15, 2) ∈ c8State.selected_grid_tiles ∧
    (roundTrip c8State).map (fun s => decide ((15, 2) ∈ s.selected_grid_tiles))
      = some false := by
  constructor <;>
  · simp only [c8State, bankDragSingle, dropEvent, cell_c8_900_120]
    decide

end Tiler
